import Mathlib

/-!
Shallow embedding of the hour-of-day ad-cost analysis in
`flask_app/app.py` (the `analyze` route and its inner `find_worst_hours`
function), together with theorems checking the natural-language
specification against it.

Modelling conventions:
* money and result counts are rationals (`ℚ`);
* `FVal` models IEEE float outcomes of unguarded divisions (finite value,
  `inf`, `-inf`, `NaN`) where the Python code divides without a zero
  guard (lines 42-43 and 46-48 of `app.py`); guarded divisions
  (`x / y if y != 0 else 0`, lines 60, 70, 76) are translated literally;
* Python `round(x, n)` is modelled as exact round-half-to-even on `ℚ`;
* the call to `scipy.stats.ttest_ind` (an external statistics library) is
  an oracle parameter `pfun` mapping the two per-hour cost-per-result
  columns to the pair `(t_stat, p_value)`;
* the time-of-day cell of a row is a `List Char`; the `.str.slice(0, 2)`
  followed by `.astype(int)` of line 28 becomes `parseIntChars (cs.take 2)`;
* the locals of `find_worst_hours` (lines 66-82) are named top-level
  functions of the aggregate table, the global average cost and the
  window size, so each corresponds to one line of the source.
-/

namespace AdsFlask

/-- Outcome of a float division: finite rational, `inf`, `-inf` or `NaN`. -/
inductive FVal where
  | fin : ℚ → FVal
  | inf : FVal
  | neginf : FVal
  | nan : FVal
deriving DecidableEq, Repr

/-- Float division `a / b`: finite when `b ≠ 0`, otherwise `±inf` or `NaN`
depending on the sign of `a` (IEEE semantics for division by zero). -/
def fdiv (a b : ℚ) : FVal :=
  if b ≠ 0 then .fin (a / b)
  else if a > 0 then .inf
  else if a < 0 then .neginf
  else .nan

/-- Round a rational to the nearest integer, ties to even
(the rounding mode of Python `round`). -/
def roundHalfEven (q : ℚ) : ℤ :=
  let f := ⌊q⌋
  let r := q - f
  if r < 1/2 then f
  else if r > 1/2 then f + 1
  else if f % 2 = 0 then f else f + 1

/-- Python `round(q, n)`: round half to even at `n` decimal places. -/
def pround (q : ℚ) (n : ℕ) : ℚ :=
  (roundHalfEven (q * (10 : ℚ) ^ n) : ℚ) / (10 : ℚ) ^ n

/-- One input row after the `fillna(0)` cleanup of lines 31-33: the raw
time-of-day text plus the numeric `Results` and `Amount spent (...)`
cells. -/
structure Row where
  timeOfDay : List Char
  results : ℚ
  spend : ℚ
deriving DecidableEq, Repr

/-- One typed event: `Hour` as parsed by `astype(int)` (any integer — the
code never range-checks it), with the results and spend of the row. -/
structure Event where
  hour : ℤ
  results : ℚ
  spend : ℚ
deriving DecidableEq, Repr

/-- One row of the `hourly_new_data_set` dataframe after
`groupby('Hour').agg(sum)` and the `Cost per Result` column
(lines 36-43). -/
structure Bucket where
  hour : ℤ
  totalResults : ℚ
  totalSpend : ℚ
  costPerResult : FVal
deriving DecidableEq, Repr

/-- The record returned by `find_worst_hours` (lines 84-93): all numeric
fields already rounded, exactly as the code rounds them before
returning. -/
structure WindowResult where
  window_size : ℕ
  worst_consecutive_hours : List ℤ
  current_avg_cost : ℚ
  avg_cost_worst_hours : ℚ
  avg_cost_remaining_hours : ℚ
  improvement_percentage : ℚ
  t_stat : ℚ
  p_value : ℚ
deriving DecidableEq, Repr

/-- The recommendation dict built at lines 106-131: the chosen
`WindowResult` (whose fields the code copies one by one), the banner
message and the `style` tag. -/
structure Recommendation where
  message : String
  result : WindowResult
  style : String
deriving DecidableEq, Repr

/-- The p-value oracle standing for `scipy.stats.ttest_ind` (line 82):
from the remaining-hours and worst-hours `Cost per Result` columns to
`(t_stat, p_value)`. -/
abbrev POracle := List FVal → List FVal → ℚ × ℚ

/-! ### Row normalisation (lines 23-33) -/

/-- Digit value of a character, `none` for a non-digit. -/
def digitVal (c : Char) : Option ℕ :=
  if c.isDigit then some (c.toNat - 48) else none

/-- Parse a non-empty all-digit character list as a natural number
(Python `int` on a digit string); a non-digit or the empty list fails. -/
def parseNatChars (cs : List Char) : Option ℕ :=
  match cs with
  | [] => none
  | _ =>
    cs.foldl (fun acc c =>
      match acc, digitVal c with
      | some n, some d => some (10 * n + d)
      | _, _ => none) (some 0)

/-- Parse an optionally `-`-signed digit string as an integer
(Python `int(...)` as applied by `astype(int)`). -/
def parseIntChars (cs : List Char) : Option ℤ :=
  match cs with
  | '-' :: rest => (parseNatChars rest).map (fun n => -(n : ℤ))
  | _ => (parseNatChars cs).map (fun n => (n : ℤ))

/-- Hour extraction for one row (line 28): first two characters of the
time-of-day cell, parsed as an integer. There is no range check. -/
def parseRow (r : Row) : Option Event :=
  (parseIntChars (r.timeOfDay.take 2)).map (fun h => ⟨h, r.results, r.spend⟩)

/-- Parse every row; a single failure aborts the whole batch (the
`ValueError` raised by `astype(int)` is caught at line 135). -/
def parseRows : List Row → Option (List Event)
  | [] => some []
  | r :: rs =>
    match parseRow r, parseRows rs with
    | some e, some es => some (e :: es)
    | _, _ => none

/-- The three required column names (line 23). -/
def requiredColumns (currency : String) : List String :=
  ["Results", "Time of day (ad account time zone)",
   "Amount spent (" ++ currency ++ ")"]

/-- Column presence check (line 24). -/
def checkColumns (cols : List String) (currency : String) : Bool :=
  (requiredColumns currency).all (fun c => cols.contains c)

/-- The static error banner rendered by the `except` handler
(lines 135-137, HTML markup elided): one constant string, independent of
which columns are missing and of the discovered column set. -/
def errorMessage : String :=
  "The file contents are wrong. Your file must have the following columns: Results, Time of day (ad account time zone), Amount spent (XXX). Where XXX must match the selected currency."

/-! ### Hourly aggregation (lines 36-48) -/

/-- Sum of the `Results` cells of the events at hour `h`. -/
def sumResultsAt (events : List Event) (h : ℤ) : ℚ :=
  ((events.filter (fun e => e.hour = h)).map (fun e => e.results)).sum

/-- Sum of the spend cells of the events at hour `h`. -/
def sumSpendAt (events : List Event) (h : ℤ) : ℚ :=
  ((events.filter (fun e => e.hour = h)).map (fun e => e.spend)).sum

/-- Insert an integer into an ascending list. -/
def insertAsc (x : ℤ) : List ℤ → List ℤ
  | [] => [x]
  | y :: ys => if x ≤ y then x :: y :: ys else y :: insertAsc x ys

/-- Ascending insertion sort on integers (`groupby` emits its keys in
ascending order). -/
def sortAsc (l : List ℤ) : List ℤ :=
  l.foldr insertAsc []

/-- The distinct hours occurring in the events, ascending — the group
keys of `groupby('Hour')`. Hours with no events yield no group. -/
def groupHours (events : List Event) : List ℤ :=
  sortAsc (events.map (fun e => e.hour)).dedup

/-- The `Cost per Result` column (lines 42-43): float division of spend
by results, with `inf` and `-inf` replaced by `0`; `NaN` (the `0/0`
case) is not replaced. -/
def costPerResult (spend results : ℚ) : FVal :=
  match fdiv spend results with
  | .inf => .fin 0
  | .neginf => .fin 0
  | v => v

/-- The aggregated row for hour `h`. -/
def mkBucket (events : List Event) (h : ℤ) : Bucket :=
  ⟨h, sumResultsAt events h, sumSpendAt events h,
   costPerResult (sumSpendAt events h) (sumResultsAt events h)⟩

/-- `hourly_new_data_set` (lines 36-43): one bucket per distinct hour
present among the events, ascending by hour. -/
def hourlyAgg (events : List Event) : List Bucket :=
  (groupHours events).map (mkBucket events)

/-- `current_avg_cost` with its true float semantics (lines 46-48): the
division is not zero-guarded, so zero total results yields `inf` or
`NaN`, never `0`. -/
def current_avg_cost_float (tbl : List Bucket) : FVal :=
  fdiv ((tbl.map (fun b => b.totalSpend)).sum)
       ((tbl.map (fun b => b.totalResults)).sum)

/-- `current_avg_cost` as a rational (line 48), as the downstream
pipeline consumes it; it agrees with the float semantics whenever the
total result count is nonzero. -/
def current_avg_cost (tbl : List Bucket) : ℚ :=
  ((tbl.map (fun b => b.totalSpend)).sum) / ((tbl.map (fun b => b.totalResults)).sum)

/-! ### The window scanner `find_worst_hours` (lines 51-93) -/

/-- `hours_block` (line 56): the circular block of `w` hours starting at
`start`, wrapping modulo 24. -/
def hoursBlock (start : ℕ) (w : ℕ) : List ℤ :=
  (List.range w).map (fun i : ℕ => ((start : ℤ) + (i : ℤ)) % 24)

/-- Average cost of the buckets whose hour lies in `block`
(lines 57-60, a guarded division). -/
def blockAvgCost (tbl : List Bucket) (block : List ℤ) : ℚ :=
  let d := tbl.filter (fun b => block.contains b.hour)
  let tc := (d.map (fun b => b.totalSpend)).sum
  let tr := (d.map (fun b => b.totalResults)).sum
  if tr ≠ 0 then tc / tr else 0

/-- One iteration of the loop of lines 55-64: replace the champion block
only when the new average cost is strictly greater. -/
def scanStep (tbl : List Bucket) (w : ℕ) (acc : List ℤ × ℚ) (start : ℕ) :
    List ℤ × ℚ :=
  let block := hoursBlock start w
  let c := blockAvgCost tbl block
  if c > acc.2 then (block, c) else acc

/-- The scan of lines 52-64: fold `scanStep` over `start_hour` in
`range(24)` starting from the empty champion `([], 0)`. -/
def scanWorst (tbl : List Bucket) (w : ℕ) : List ℤ × ℚ :=
  (List.range 24).foldl (scanStep tbl w) ([], 0)

/-- `worst_consecutive_hours` as left by the scan loop (line 64). -/
def worst_hours_of (tbl : List Bucket) (w : ℕ) : List ℤ :=
  (scanWorst tbl w).1

/-- `worst_hours_data` (line 67): the buckets of the worst block. -/
def worst_data (tbl : List Bucket) (w : ℕ) : List Bucket :=
  tbl.filter (fun b => (worst_hours_of tbl w).contains b.hour)

/-- `remaining_hours_data` (line 73): the buckets outside the worst
block. -/
def remaining_data (tbl : List Bucket) (w : ℕ) : List Bucket :=
  tbl.filter (fun b => !((worst_hours_of tbl w).contains b.hour))

/-- `avg_cost_worst_hours` (lines 68-70), with the guarded division. -/
def avg_cost_worst (tbl : List Bucket) (w : ℕ) : ℚ :=
  let tc := ((worst_data tbl w).map (fun b => b.totalSpend)).sum
  let tr := ((worst_data tbl w).map (fun b => b.totalResults)).sum
  if tr ≠ 0 then tc / tr else 0

/-- `avg_cost_remaining_hours` (lines 74-76), with the guarded
division. -/
def avg_cost_remaining (tbl : List Bucket) (w : ℕ) : ℚ :=
  let tc := ((remaining_data tbl w).map (fun b => b.totalSpend)).sum
  let tr := ((remaining_data tbl w).map (fun b => b.totalResults)).sum
  if tr ≠ 0 then tc / tr else 0

/-- `improvement_percentage` (line 79). -/
def improvement_of (tbl : List Bucket) (cac : ℚ) (w : ℕ) : ℚ :=
  ((cac - avg_cost_remaining tbl w) / cac) * 100

/-- `find_worst_hours` (lines 51-93), parameterised by the t-test oracle
`pfun`; it reads the aggregate table `tbl` and the global `cac`
(`current_avg_cost`) exactly as the Python closure reads the enclosing
variables, and returns the record of lines 84-93 with every numeric
field rounded there. -/
def find_worst_hours (pfun : POracle) (tbl : List Bucket) (cac : ℚ)
    (w : ℕ) : WindowResult :=
  let tp := pfun ((remaining_data tbl w).map (fun b => b.costPerResult))
                 ((worst_data tbl w).map (fun b => b.costPerResult))
  { window_size := w
    worst_consecutive_hours := worst_hours_of tbl w
    current_avg_cost := pround cac 2
    avg_cost_worst_hours := pround (avg_cost_worst tbl w) 2
    avg_cost_remaining_hours := pround (avg_cost_remaining tbl w) 2
    improvement_percentage := pround (improvement_of tbl cac w) 2
    t_stat := pround tp.1 2
    p_value := pround tp.2 4 }

/-- The variant of `find_worst_hours` described by the specification:
identical computation, but no rounding before the reporting boundary
(the record carries the unrounded values used for selection). -/
def find_worst_hours_unrounded (pfun : POracle) (tbl : List Bucket)
    (cac : ℚ) (w : ℕ) : WindowResult :=
  let tp := pfun ((remaining_data tbl w).map (fun b => b.costPerResult))
                 ((worst_data tbl w).map (fun b => b.costPerResult))
  { window_size := w
    worst_consecutive_hours := worst_hours_of tbl w
    current_avg_cost := cac
    avg_cost_worst_hours := avg_cost_worst tbl w
    avg_cost_remaining_hours := avg_cost_remaining tbl w
    improvement_percentage := improvement_of tbl cac w
    t_stat := tp.1
    p_value := tp.2 }

/-- Round every numeric field of a `WindowResult` as lines 87-92 do. -/
def roundWindowResult (r : WindowResult) : WindowResult :=
  { window_size := r.window_size
    worst_consecutive_hours := r.worst_consecutive_hours
    current_avg_cost := pround r.current_avg_cost 2
    avg_cost_worst_hours := pround r.avg_cost_worst_hours 2
    avg_cost_remaining_hours := pround r.avg_cost_remaining_hours 2
    improvement_percentage := pround r.improvement_percentage 2
    t_stat := pround r.t_stat 2
    p_value := pround r.p_value 4 }

/-- The sweep loop of lines 96-99: `results = []` followed by appending
`find_worst_hours(window_size)` for each window size in order. -/
def sweepLoop (pfun : POracle) (tbl : List Bucket) (cac : ℚ)
    (ws : List ℕ) : List WindowResult :=
  ws.foldl (fun acc w => acc ++ [find_worst_hours pfun tbl cac w]) []

/-- The full sweep over `range(3, 13)`: window sizes 3 through 12. -/
def sweep (pfun : POracle) (tbl : List Bucket) (cac : ℚ) : List WindowResult :=
  sweepLoop pfun tbl cac (List.range' 3 10)

/-- The unrounded sweep, per the specification variant. -/
def sweep_unrounded (pfun : POracle) (tbl : List Bucket) (cac : ℚ) :
    List WindowResult :=
  (List.range' 3 10).map (find_worst_hours_unrounded pfun tbl cac)

/-! ### The recommender (lines 102-131) -/

/-- The champion fold shared by Python `max` and `min` with a key: a
later element replaces the champion only when `better` holds of it and
the champion, so the first optimum wins ties. -/
def pyFold (better : α → α → Prop) [DecidableRel better] (x : α)
    (xs : List α) : α :=
  xs.foldl (fun acc y => if better y acc then y else acc) x

/-- Python `max(l, key=f)`: the first element attaining the maximum key. -/
def pymax (f : α → ℚ) : List α → Option α
  | [] => none
  | x :: xs => some (pyFold (fun a b => f a > f b) x xs)

/-- Python `min(l, key=f)`: the first element attaining the minimum key. -/
def pymin (f : α → ℚ) : List α → Option α
  | [] => none
  | x :: xs => some (pyFold (fun a b => f a < f b) x xs)

/-- The success-branch banner (line 107, punctuation as in the source). -/
def successMessage : String :=
  "Best Window Size for Improvement (with p-value < 0.05):"

/-- The warning-branch banner (line 121). -/
def warningMessage : String :=
  "No window size has a p-value < 0.05<br> Showing the closest result:"

/-- The recommender (lines 102-131): filter the results whose (rounded)
p-value is below 0.05; if any, take the one with maximum (rounded)
improvement percentage, style `success`; otherwise the one whose
(rounded) p-value is closest to 0.05, style `warning`. -/
def recommend (results : List WindowResult) : Option Recommendation :=
  let significant := results.filter (fun r => r.p_value < 1/20)
  if significant = [] then
    (pymin (fun r => |r.p_value - 1/20|) results).map
      (fun b => ⟨warningMessage, b, "warning"⟩)
  else
    (pymax (fun r => r.improvement_percentage) significant).map
      (fun b => ⟨successMessage, b, "success"⟩)

/-! ### The whole analysis -/

/-- The core pipeline on parsed events: aggregate, compute the global
average cost, sweep the 10 window sizes, recommend. -/
def analyzeCore (pfun : POracle) (events : List Event) :
    Option Recommendation :=
  recommend (sweep pfun (hourlyAgg events)
    (current_avg_cost (hourlyAgg events)))

/-- The specification variant of the core pipeline: selection over the
unrounded sweep. -/
def analyzeCoreUnrounded (pfun : POracle) (events : List Event) :
    Option Recommendation :=
  recommend (sweep_unrounded pfun (hourlyAgg events)
    (current_avg_cost (hourlyAgg events)))

/-- The `analyze` route (lines 12-137): column check, row parsing, core
pipeline; every failure path renders the one static `errorMessage`. -/
def analyze (pfun : POracle) (currency : String) (cols : List String)
    (rows : List Row) : Except String Recommendation :=
  if checkColumns cols currency then
    match parseRows rows with
    | none => .error errorMessage
    | some events =>
      match analyzeCore pfun events with
      | some rec => .ok rec
      | none => .error errorMessage
  else .error errorMessage

/-- `true` on the success path of `analyze`. -/
def exceptOk : Except String Recommendation → Bool
  | .ok _ => true
  | .error _ => false

end AdsFlask

namespace AdsFlask

/-! ### Concrete inputs used by several theorems -/

/-- The end-to-end example input of the specification: 24 hours with 10
results each, one dollar spent per hour except hours 2, 3, 4 which spend
five dollars. -/
def exampleEvents : List Event :=
  (List.range 24).map (fun h => ⟨(h : ℤ), 10, if 2 ≤ h ∧ h ≤ 4 then 5 else 1⟩)

/-- The aggregate table of `exampleEvents`, written out. -/
def exampleTable : List Bucket :=
  (List.range 24).map (fun h =>
    if 2 ≤ h ∧ h ≤ 4 then ⟨(h : ℤ), 10, 5, .fin (1/2)⟩
    else ⟨(h : ℤ), 10, 1, .fin (1/10)⟩)

/-- A constant p-value oracle (any oracle works where the claim does not
constrain the p-values). -/
def pfunConst : POracle := fun _ _ => (0, 1)

set_option maxRecDepth 3000 in
/-- Aggregating the example events yields the explicit example table. -/
theorem hourlyAgg_example : hourlyAgg exampleEvents = exampleTable := by
  with_unfolding_all decide

set_option maxRecDepth 2500 in
/-- The global average cost of the example table. -/
theorem cac_example : current_avg_cost exampleTable = 3/20 := by
  with_unfolding_all decide

set_option maxRecDepth 2500 in
/-- The worst window of size 3 in the example table. -/
theorem worst3_example : worst_hours_of exampleTable 3 = [2, 3, 4] := by
  with_unfolding_all decide

set_option maxRecDepth 2500 in
/-- Average cost inside the worst size-3 window of the example table. -/
theorem acw3_example : avg_cost_worst exampleTable 3 = 1/2 := by
  with_unfolding_all decide

set_option maxRecDepth 2500 in
/-- Average cost outside the worst size-3 window of the example table. -/
theorem acr3_example : avg_cost_remaining exampleTable 3 = 1/10 := by
  with_unfolding_all decide

end AdsFlask


namespace AdsFlask

/-! ### Structural lemmas about the sweep and the scan -/

/-- The append-fold of lines 96-99 is a map over the window sizes. -/
theorem sweepLoop_eq_map (pfun : POracle) (tbl : List Bucket) (cac : ℚ)
    (ws : List ℕ) :
    sweepLoop pfun tbl cac ws = ws.map (find_worst_hours pfun tbl cac) := by
  suffices h : ∀ acc : List WindowResult,
      ws.foldl (fun acc w => acc ++ [find_worst_hours pfun tbl cac w]) acc
        = acc ++ ws.map (find_worst_hours pfun tbl cac) by
    simpa [sweepLoop] using h []
  induction ws with
  | nil => intro acc; simp
  | cons w ws ih =>
    intro acc
    simp only [List.foldl_cons, List.map_cons, ih, List.append_assoc,
      List.singleton_append]

/-- The sweep always returns its ten results. -/
theorem sweep_ne_nil (pfun : POracle) (tbl : List Bucket) (cac : ℚ) :
    sweep pfun tbl cac ≠ [] := by
  rw [sweep, sweepLoop_eq_map]
  intro h
  have := congrArg List.length h
  simp at this

/-- Every intermediate champion of the scan loop is either the initial
accumulator or one of the scanned circular blocks. -/
theorem scanFold_shape (tbl : List Bucket) (w : ℕ) :
    ∀ (l : List ℕ) (acc : List ℤ × ℚ),
      (l.foldl (scanStep tbl w) acc).1 = acc.1 ∨
      ∃ s ∈ l, (l.foldl (scanStep tbl w) acc).1 = hoursBlock s w := by
  intro l
  induction l with
  | nil => intro acc; exact Or.inl rfl
  | cons x xs ih =>
    intro acc
    rw [List.foldl_cons]
    rcases ih (scanStep tbl w acc x) with h | ⟨s, hs, h⟩
    · by_cases hc : blockAvgCost tbl (hoursBlock x w) > acc.2
      · right
        refine ⟨x, List.mem_cons_self _ _, ?_⟩
        rw [h]
        simp only [scanStep, if_pos hc]
      · left
        rw [h]
        simp only [scanStep, if_neg hc]
    · exact Or.inr ⟨s, List.mem_cons_of_mem _ hs, h⟩

/-- The worst block is empty or a circular block of some start below 24. -/
theorem worst_hours_shape (tbl : List Bucket) (w : ℕ) :
    worst_hours_of tbl w = [] ∨
    ∃ s, s < 24 ∧ worst_hours_of tbl w = hoursBlock s w := by
  rcases scanFold_shape tbl w (List.range 24) ([], 0) with h | ⟨s, hs, h⟩
  · exact Or.inl h
  · exact Or.inr ⟨s, List.mem_range.mp hs, h⟩

/-- A circular block has exactly its window size of hours. -/
theorem hoursBlock_length (s w : ℕ) : (hoursBlock s w).length = w := by
  rw [hoursBlock, List.length_map, List.length_range]

/-- Circular blocks of fewer than 13 hours have no repeated hour. -/
theorem hoursBlock_nodup : ∀ s < 24, ∀ w < 13, (hoursBlock s w).Nodup := by
  decide

end AdsFlask

namespace AdsFlask

/-- Ascending insertion permutes. -/
theorem insertAsc_perm (x : ℤ) (l : List ℤ) : (insertAsc x l).Perm (x :: l) := by
  induction l with
  | nil => exact List.Perm.refl _
  | cons y ys ih =>
    simp only [insertAsc]
    by_cases h : x ≤ y
    · rw [if_pos h]
    · rw [if_neg h]
      exact (ih.cons y).trans (List.Perm.swap x y ys)

/-- The insertion sort is a permutation of its input. -/
theorem sortAsc_perm (l : List ℤ) : (sortAsc l).Perm l := by
  induction l with
  | nil => exact List.Perm.refl _
  | cons x xs ih =>
    simp only [sortAsc, List.foldr_cons]
    exact (insertAsc_perm x _).trans (ih.cons x)

/-- The group keys are pairwise distinct. -/
theorem groupHours_nodup (events : List Event) : (groupHours events).Nodup :=
  (sortAsc_perm _).nodup_iff.mpr (List.nodup_dedup _)

/-- A group key exists exactly for the hours present in the events. -/
theorem mem_groupHours (events : List Event) (h : ℤ) :
    h ∈ groupHours events ↔ h ∈ events.map (fun e => e.hour) := by
  rw [groupHours, (sortAsc_perm _).mem_iff, List.mem_dedup]

/-- The bucket hours are exactly the group keys. -/
theorem hourlyAgg_hours (events : List Event) :
    (hourlyAgg events).map (fun b => b.hour) = groupHours events := by
  rw [hourlyAgg, List.map_map]
  exact List.map_id _

/-- A row fails to parse exactly when its two-character hour prefix is
not an integer. -/
theorem parseRow_eq_none (r : Row) :
    parseRow r = none ↔ parseIntChars (r.timeOfDay.take 2) = none := by
  simp [parseRow]

/-- The batch fails to parse exactly when some row has a non-integer
hour prefix. -/
theorem parseRows_eq_none (rows : List Row) :
    parseRows rows = none ↔
      ∃ r ∈ rows, parseIntChars (r.timeOfDay.take 2) = none := by
  induction rows with
  | nil => simp [parseRows]
  | cons r rs ih =>
    simp only [parseRows]
    cases hr : parseRow r with
    | none =>
      simp only [List.mem_cons, eq_self_iff_true, true_iff]
      exact ⟨r, Or.inl rfl, (parseRow_eq_none r).mp hr⟩
    | some e =>
      cases hp : parseRows rs with
      | none =>
        simp only [List.mem_cons, eq_self_iff_true, true_iff]
        obtain ⟨s, hs, hn⟩ := ih.mp hp
        exact ⟨s, Or.inr hs, hn⟩
      | some es =>
        simp only [List.mem_cons]
        constructor
        · intro h; exact absurd h (by simp)
        · rintro ⟨s, hs | hs, hn⟩
          · subst hs
            rw [(parseRow_eq_none s).mpr hn] at hr
            exact absurd hr (by simp)
          · have : parseRows rs = none := ih.mpr ⟨s, hs, hn⟩
            rw [this] at hp
            exact absurd hp (by simp)

end AdsFlask

namespace AdsFlask

/-- A successful parse keeps every row, in order, with exactly the hour
its prefix denotes — whatever that integer is. -/
theorem parseRows_hours :
    ∀ (rows : List Row) (events : List Event), parseRows rows = some events →
      events.map (fun e => (some e.hour : Option ℤ)) =
        rows.map (fun r => parseIntChars (r.timeOfDay.take 2)) := by
  intro rows
  induction rows with
  | nil =>
    intro events h
    simp only [parseRows, Option.some.injEq] at h
    subst h
    simp
  | cons r rs ih =>
    intro events h
    simp only [parseRows] at h
    cases hr : parseRow r with
    | none => rw [hr] at h; exact absurd h (by simp)
    | some e =>
      cases hp : parseRows rs with
      | none => rw [hr, hp] at h; exact absurd h (by simp)
      | some es =>
        rw [hr, hp] at h
        simp only [Option.some.injEq] at h
        subst h
        obtain ⟨hv, hhv, he⟩ := Option.map_eq_some'.mp hr
        simp only [List.map_cons, ih es hp, List.cons.injEq, and_true]
        rw [hhv, ← he]

/-- The recommender yields a recommendation for any nonempty result
list. -/
theorem recommend_exists (rs : List WindowResult) (h : rs ≠ []) :
    ∃ rec, recommend rs = some rec := by
  obtain ⟨x, xs, rfl⟩ := List.exists_cons_of_ne_nil h
  simp only [recommend]
  by_cases hs : (x :: xs).filter (fun r => r.p_value < 1/20) = []
  · rw [if_pos hs]
    exact ⟨_, rfl⟩
  · rw [if_neg hs]
    obtain ⟨y, ys, hyy⟩ := List.exists_cons_of_ne_nil hs
    rw [hyy]
    exact ⟨_, rfl⟩

/-- The core pipeline always yields a recommendation. -/
theorem analyzeCore_exists (pfun : POracle) (events : List Event) :
    ∃ rec, analyzeCore pfun events = some rec :=
  recommend_exists _ (sweep_ne_nil pfun _ _)

end AdsFlask

namespace AdsFlask

/-- `r` occurs in `l`, beats every element before it, and no element
after it beats `r` — the first optimum under `better`. -/
def IsBestFirst (better : α → α → Prop) (l : List α) (r : α) : Prop :=
  ∃ pre post, l = pre ++ r :: post ∧ (∀ s ∈ pre, better r s) ∧
    ∀ s ∈ post, ¬ better s r

/-- The champion fold keeps the first optimum: a later element replaces
the champion only on a strict improvement. `htrans` is transitivity and
`hcut` lets anything that beats `b` also beat whatever fails to beat
`b`; both hold for any key-based strict comparison. -/
theorem pyFold_isBestFirst (better : α → α → Prop) [DecidableRel better]
    (htrans : ∀ a b c, better a b → better b c → better a c)
    (hcut : ∀ a b c, better a b → ¬ better c b → better a c) :
    ∀ (xs : List α) (x : α), IsBestFirst better (x :: xs) (pyFold better x xs) := by
  intro xs
  induction xs with
  | nil =>
    intro x
    exact ⟨[], [], rfl, by simp, by simp⟩
  | cons y ys ih =>
    intro x
    have hstep : pyFold better x (y :: ys)
        = pyFold better (if better y x then y else x) ys := rfl
    by_cases hby : better y x
    · rw [hstep, if_pos hby]
      obtain ⟨pre, post, hdec, hpre, hpost⟩ := ih y
      have hr_y : better (pyFold better y ys) y ∨ pyFold better y ys = y := by
        cases pre with
        | nil =>
          simp only [List.nil_append] at hdec
          exact Or.inr (List.cons.injEq _ _ _ _ ▸ hdec).1.symm
        | cons p ps =>
          simp only [List.cons_append] at hdec
          have hpy : p = y := ((List.cons.injEq _ _ _ _ ▸ hdec).1).symm
          have h := hpre p (List.mem_cons_self _ _)
          rw [hpy] at h
          exact Or.inl h
      have hrx : better (pyFold better y ys) x := by
        rcases hr_y with h | h
        · exact htrans _ _ _ h hby
        · rw [h]; exact hby
      refine ⟨x :: pre, post, ?_, ?_, hpost⟩
      · rw [List.cons_append, ← hdec]
      · intro s hs
        rcases List.mem_cons.mp hs with rfl | hs
        · exact hrx
        · exact hpre s hs
    · rw [hstep, if_neg hby]
      obtain ⟨pre, post, hdec, hpre, hpost⟩ := ih x
      cases pre with
      | nil =>
        simp only [List.nil_append] at hdec
        have hrx : pyFold better x ys = x := ((List.cons.injEq _ _ _ _ ▸ hdec).1).symm
        have hpost2 : ys = post := (List.cons.injEq _ _ _ _ ▸ hdec).2
        refine ⟨[], y :: ys, ?_, by simp, ?_⟩
        · rw [List.nil_append, hrx]
        · intro s hs
          rcases List.mem_cons.mp hs with rfl | hs
          · rw [hrx]; exact hby
          · rw [hpost2] at hs; exact hpost s hs
      | cons p ps =>
        simp only [List.cons_append] at hdec
        have hpx : p = x := ((List.cons.injEq _ _ _ _ ▸ hdec).1).symm
        have hys : ys = ps ++ pyFold better x ys :: post :=
          (List.cons.injEq _ _ _ _ ▸ hdec).2
        have hrx : better (pyFold better x ys) x := by
          have h := hpre p (List.mem_cons_self _ _)
          rw [hpx] at h
          exact h
        refine ⟨x :: y :: ps, post, ?_, ?_, hpost⟩
        · rw [List.cons_append, List.cons_append, ← hys]
        · intro s hs
          rcases List.mem_cons.mp hs with rfl | hs
          · exact hrx
          · rcases List.mem_cons.mp hs with rfl | hs
            · exact hcut _ _ _ hrx hby
            · exact hpre s (List.mem_cons_of_mem _ hs)

/-- Python `max` with a key returns the first element of maximum key. -/
theorem pymax_isBestFirst (f : α → ℚ) (x : α) (xs : List α) (r : α)
    (h : pymax f (x :: xs) = some r) :
    IsBestFirst (fun a b => f a > f b) (x :: xs) r := by
  have hr : r = pyFold (fun a b => f a > f b) x xs := by
    simpa [pymax] using h.symm
  subst hr
  exact pyFold_isBestFirst (fun a b => f a > f b)
    (fun a b c hab hbc => lt_trans hbc hab)
    (fun a b c hab hcb => lt_of_le_of_lt (le_of_not_lt hcb) hab) xs x

/-- Python `min` with a key returns the first element of minimum key. -/
theorem pymin_isBestFirst (f : α → ℚ) (x : α) (xs : List α) (r : α)
    (h : pymin f (x :: xs) = some r) :
    IsBestFirst (fun a b => f a < f b) (x :: xs) r := by
  have hr : r = pyFold (fun a b => f a < f b) x xs := by
    simpa [pymin] using h.symm
  subst hr
  exact pyFold_isBestFirst (fun a b => f a < f b)
    (fun a b c hab hbc => lt_trans hab hbc)
    (fun a b c hab hcb => lt_of_lt_of_le hab (le_of_not_lt hcb)) xs x

end AdsFlask

namespace AdsFlask

/-- C1: over any sweep output, if some result has (rounded) p-value
below 0.05 the recommendation is the significant result of maximum
(rounded) improvement percentage, first-encountered winning ties, styled
`success`; otherwise it is the result minimising the distance of the
(rounded) p-value to 0.05, first-encountered winning ties, styled
`warning`. -/
theorem C1_recommender_selection (pfun : POracle) (tbl : List Bucket) (cac : ℚ) :
    ((sweep pfun tbl cac).filter (fun r => r.p_value < 1/20) ≠ [] →
      ∃ rec, recommend (sweep pfun tbl cac) = some rec ∧
        rec.style = "success" ∧ rec.message = successMessage ∧
        IsBestFirst (fun a b => a.improvement_percentage > b.improvement_percentage)
          ((sweep pfun tbl cac).filter (fun r => r.p_value < 1/20)) rec.result) ∧
    ((sweep pfun tbl cac).filter (fun r => r.p_value < 1/20) = [] →
      ∃ rec, recommend (sweep pfun tbl cac) = some rec ∧
        rec.style = "warning" ∧ rec.message = warningMessage ∧
        IsBestFirst (fun a b => |a.p_value - 1/20| < |b.p_value - 1/20|)
          (sweep pfun tbl cac) rec.result) := by
  constructor
  · intro hne
    obtain ⟨y, ys, hyy⟩ := List.exists_cons_of_ne_nil hne
    refine ⟨⟨successMessage,
      pyFold (fun a b : WindowResult =>
        a.improvement_percentage > b.improvement_percentage) y ys, "success"⟩,
      ?_, rfl, rfl, ?_⟩
    · simp only [recommend]
      rw [if_neg hne, hyy]
      rfl
    · rw [hyy]
      exact pymax_isBestFirst _ y ys _ rfl
  · intro hemp
    obtain ⟨y, ys, hyy⟩ := List.exists_cons_of_ne_nil (sweep_ne_nil pfun tbl cac)
    refine ⟨⟨warningMessage,
      pyFold (fun a b : WindowResult =>
        |a.p_value - 1/20| < |b.p_value - 1/20|) y ys, "warning"⟩,
      ?_, rfl, rfl, ?_⟩
    · simp only [recommend]
      rw [if_pos hemp, hyy]
      rfl
    · rw [hyy]
      exact pymin_isBestFirst _ y ys _ rfl

set_option maxRecDepth 2000 in
/-- Witness for C1 at a concrete oracle and table: the warning branch. -/
theorem C1_witness :
    ∃ rec, recommend (sweep pfunConst [] 0) = some rec ∧
      rec.style = "warning" ∧ rec.message = warningMessage ∧
      IsBestFirst (fun a b => |a.p_value - 1/20| < |b.p_value - 1/20|)
        (sweep pfunConst [] 0) rec.result :=
  (C1_recommender_selection pfunConst [] 0).2 (by with_unfolding_all decide)

/-- C10: the sweep loop only reads the aggregate table and the global
average cost: it equals a map of the pure per-window function over the
window sizes, so every result is a function of the table, the global
average and its own window size alone, and scanning the window sizes in
any other order permutes the results accordingly. -/
theorem C10_sweep_frame (pfun : POracle) (tbl : List Bucket) (cac : ℚ)
    (ws : List ℕ) :
    sweepLoop pfun tbl cac ws = ws.map (find_worst_hours pfun tbl cac) ∧
    ∀ ws' : List ℕ, ws.Perm ws' →
      (sweepLoop pfun tbl cac ws).Perm (sweepLoop pfun tbl cac ws') := by
  refine ⟨sweepLoop_eq_map pfun tbl cac ws, fun ws' hp => ?_⟩
  rw [sweepLoop_eq_map, sweepLoop_eq_map]
  exact hp.map _

/-- Witness for C10 at a concrete oracle, table and window order. -/
theorem C10_witness :
    sweepLoop pfunConst [] 0 [3, 4]
      = [find_worst_hours pfunConst [] 0 3, find_worst_hours pfunConst [] 0 4] ∧
    (sweepLoop pfunConst [] 0 [3, 4]).Perm (sweepLoop pfunConst [] 0 [4, 3]) :=
  ⟨(C10_sweep_frame pfunConst [] 0 [3, 4]).1,
   (C10_sweep_frame pfunConst [] 0 [3, 4]).2 [4, 3] (List.Perm.swap 4 3 [])⟩

end AdsFlask

namespace AdsFlask

set_option maxRecDepth 2000 in
/-- The window-size field of the scanner record. -/
theorem fw_window_size (pfun : POracle) (tbl : List Bucket) (cac : ℚ) (w : ℕ) :
    (find_worst_hours pfun tbl cac w).window_size = w := rfl

set_option maxRecDepth 2000 in
/-- The worst-hours field of the scanner record. -/
theorem fw_worst (pfun : POracle) (tbl : List Bucket) (cac : ℚ) (w : ℕ) :
    (find_worst_hours pfun tbl cac w).worst_consecutive_hours
      = worst_hours_of tbl w := rfl

set_option maxRecDepth 2000 in
/-- The global-average field of the scanner record. -/
theorem fw_cac (pfun : POracle) (tbl : List Bucket) (cac : ℚ) (w : ℕ) :
    (find_worst_hours pfun tbl cac w).current_avg_cost = pround cac 2 := rfl

set_option maxRecDepth 2000 in
/-- The worst-block average-cost field of the scanner record. -/
theorem fw_acw (pfun : POracle) (tbl : List Bucket) (cac : ℚ) (w : ℕ) :
    (find_worst_hours pfun tbl cac w).avg_cost_worst_hours
      = pround (avg_cost_worst tbl w) 2 := rfl

set_option maxRecDepth 2000 in
/-- The remaining-hours average-cost field of the scanner record. -/
theorem fw_acr (pfun : POracle) (tbl : List Bucket) (cac : ℚ) (w : ℕ) :
    (find_worst_hours pfun tbl cac w).avg_cost_remaining_hours
      = pround (avg_cost_remaining tbl w) 2 := rfl

set_option maxRecDepth 2000 in
/-- The improvement-percentage field of the scanner record. -/
theorem fw_imp (pfun : POracle) (tbl : List Bucket) (cac : ℚ) (w : ℕ) :
    (find_worst_hours pfun tbl cac w).improvement_percentage
      = pround (improvement_of tbl cac w) 2 := rfl

/-- C4: the scanner is invoked for exactly the window sizes 3 through
12, and every worst-hours list is the empty list or a wrap-around
circular block of exactly the window size of distinct hours starting
below 24. -/
theorem C4_sweep_window_blocks (pfun : POracle) (tbl : List Bucket) (cac : ℚ) :
    (sweep pfun tbl cac).map (fun r => r.window_size)
      = [3, 4, 5, 6, 7, 8, 9, 10, 11, 12] ∧
    ∀ r ∈ sweep pfun tbl cac,
      r.worst_consecutive_hours = [] ∨
      ∃ s, s < 24 ∧ r.worst_consecutive_hours = hoursBlock s r.window_size ∧
        (hoursBlock s r.window_size).length = r.window_size ∧
        (hoursBlock s r.window_size).Nodup := by
  constructor
  · rw [sweep, sweepLoop_eq_map, List.map_map]
    rfl
  · intro r hr
    rw [sweep, sweepLoop_eq_map] at hr
    obtain ⟨w, hw, rfl⟩ := List.mem_map.mp hr
    have hw13 : w < 13 := by
      have := List.mem_range'_1.mp hw
      omega
    simp only [fw_worst, fw_window_size]
    rcases worst_hours_shape tbl w with h | ⟨s, hs24, h⟩
    · exact Or.inl h
    · exact Or.inr ⟨s, hs24, h, hoursBlock_length s w, hoursBlock_nodup s hs24 w hw13⟩

/-- An input with positive results and zero spend: every block average
is zero, so the scan never replaces the initial empty champion. -/
def zeroSpendEvents : List Event := [⟨0, 10, 0⟩]

set_option maxRecDepth 2000 in
/-- C4 counterexample: on the zero-spend input every one of the ten
window results has an empty worst-hours list instead of one of length
equal to its window size. -/
theorem C4_counterexample :
    (sweep pfunConst (hourlyAgg zeroSpendEvents)
        (current_avg_cost (hourlyAgg zeroSpendEvents))).map
      (fun r => (r.window_size, r.worst_consecutive_hours.length))
      = [(3, 0), (4, 0), (5, 0), (6, 0), (7, 0), (8, 0), (9, 0), (10, 0),
         (11, 0), (12, 0)] := by
  with_unfolding_all decide

set_option maxRecDepth 2000 in
/-- Witness for C4 at a concrete oracle and table, for window size 3. -/
theorem C4_witness :
    ((sweep pfunConst (hourlyAgg zeroSpendEvents) 0).map (fun r => r.window_size)
      = [3, 4, 5, 6, 7, 8, 9, 10, 11, 12]) ∧
    ((find_worst_hours pfunConst (hourlyAgg zeroSpendEvents) 0 3).worst_consecutive_hours = [] ∨
      ∃ s, s < 24 ∧
        (find_worst_hours pfunConst (hourlyAgg zeroSpendEvents) 0 3).worst_consecutive_hours
          = hoursBlock s (find_worst_hours pfunConst (hourlyAgg zeroSpendEvents) 0 3).window_size ∧
        (hoursBlock s (find_worst_hours pfunConst (hourlyAgg zeroSpendEvents) 0 3).window_size).length
          = (find_worst_hours pfunConst (hourlyAgg zeroSpendEvents) 0 3).window_size ∧
        (hoursBlock s (find_worst_hours pfunConst (hourlyAgg zeroSpendEvents) 0 3).window_size).Nodup) :=
  ⟨(C4_sweep_window_blocks pfunConst (hourlyAgg zeroSpendEvents) 0).1,
   (C4_sweep_window_blocks pfunConst (hourlyAgg zeroSpendEvents) 0).2
     (find_worst_hours pfunConst (hourlyAgg zeroSpendEvents) 0 3)
     (by with_unfolding_all decide)⟩

/-- C3 (amended): the aggregator produces one bucket per distinct hour
occurring in the events — not always 24 — with the summed totals of the
matching events; hours with no events yield no bucket. -/
theorem C3_hourly_aggregator (events : List Event) :
    ((hourlyAgg events).map (fun b => b.hour)).Nodup ∧
    (∀ h : ℤ, h ∈ (hourlyAgg events).map (fun b => b.hour) ↔
      h ∈ events.map (fun e => e.hour)) ∧
    ∀ b ∈ hourlyAgg events,
      b.totalResults = sumResultsAt events b.hour ∧
      b.totalSpend = sumSpendAt events b.hour := by
  refine ⟨?_, ?_, ?_⟩
  · rw [hourlyAgg_hours]
    exact groupHours_nodup events
  · intro h
    rw [hourlyAgg_hours]
    exact mem_groupHours events h
  · intro b hb
    obtain ⟨h, hh, rfl⟩ := List.mem_map.mp hb
    exact ⟨rfl, rfl⟩

/-- C3 counterexample: a single-event input yields one bucket, not 24. -/
theorem C3_counterexample :
    (hourlyAgg [⟨5, 10, 5⟩]).length = 1 ∧ (hourlyAgg [⟨5, 10, 5⟩]).length ≠ 24 := by
  constructor <;> with_unfolding_all decide

/-- Witness for C3 at a concrete input. -/
theorem C3_witness :
    (mkBucket [⟨5, 10, 5⟩] 5).totalResults = sumResultsAt [⟨5, 10, 5⟩] 5 ∧
    (mkBucket [⟨5, 10, 5⟩] 5).totalSpend = sumSpendAt [⟨5, 10, 5⟩] 5 :=
  (C3_hourly_aggregator [⟨5, 10, 5⟩]).2.2 (mkBucket [⟨5, 10, 5⟩] 5)
    (by with_unfolding_all decide)

end AdsFlask

namespace AdsFlask

set_option maxRecDepth 2000 in
/-- Rounding the scaled improvement of the end-to-end example. -/
theorem roundHalfEven_tenThousandThirds : roundHalfEven (10000/3) = 3333 := by
  with_unfolding_all decide

/-- The example improvement percentage, rounded to two decimals. -/
theorem pround_improvement_example : pround ((3/20 - 1/10) / (3/20) * 100) 2 = 3333/100 := by
  have h1 : ((3 : ℚ)/20 - 1/10) / (3/20) * 100 = 100/3 := by norm_num
  have h2 : (100 : ℚ)/3 * 10^2 = 10000/3 := by norm_num
  rw [h1, pround, h2, roundHalfEven_tenThousandThirds]
  norm_num

end AdsFlask

namespace AdsFlask

set_option maxRecDepth 2000 in
/-- C2: on the 24-hour example input (10 results per hour, one dollar
spent per hour except five dollars at hours 2, 3, 4), the size-3 scan
returns worst hours `[2, 3, 4]`, worst-block average cost 0.5, remaining
average cost 0.1, global average cost 0.15, and improvement percentage
`(0.15 - 0.1) / 0.15 * 100` reported as 33.33 after rounding to two
decimals — whatever the t-test oracle returns. -/
theorem C2_end_to_end (pfun : POracle) :
    (find_worst_hours pfun (hourlyAgg exampleEvents)
        (current_avg_cost (hourlyAgg exampleEvents)) 3).worst_consecutive_hours
      = [2, 3, 4] ∧
    (find_worst_hours pfun (hourlyAgg exampleEvents)
        (current_avg_cost (hourlyAgg exampleEvents)) 3).avg_cost_worst_hours
      = 1/2 ∧
    (find_worst_hours pfun (hourlyAgg exampleEvents)
        (current_avg_cost (hourlyAgg exampleEvents)) 3).avg_cost_remaining_hours
      = 1/10 ∧
    (find_worst_hours pfun (hourlyAgg exampleEvents)
        (current_avg_cost (hourlyAgg exampleEvents)) 3).current_avg_cost
      = 3/20 ∧
    (find_worst_hours pfun (hourlyAgg exampleEvents)
        (current_avg_cost (hourlyAgg exampleEvents)) 3).improvement_percentage
      = pround ((3/20 - 1/10) / (3/20) * 100) 2 ∧
    (find_worst_hours pfun (hourlyAgg exampleEvents)
        (current_avg_cost (hourlyAgg exampleEvents)) 3).improvement_percentage
      = 3333/100 := by
  rw [hourlyAgg_example, cac_example]
  have himp : improvement_of exampleTable (3/20) 3 = (3/20 - 1/10) / (3/20) * 100 := by
    rw [improvement_of, acr3_example]
  refine ⟨?_, ?_, ?_, ?_, ?_, ?_⟩
  · rw [fw_worst, worst3_example]
  · rw [fw_acw, acw3_example]
    with_unfolding_all decide
  · rw [fw_acr, acr3_example]
    with_unfolding_all decide
  · rw [fw_cac]
    with_unfolding_all decide
  · rw [fw_imp, himp]
  · rw [fw_imp, himp, pround_improvement_example]

end AdsFlask

namespace AdsFlask

set_option maxRecDepth 3000 in
/-- C5 (amended): rounding is applied inside `find_worst_hours`, before
the recommender: the sweep the recommender selects from equals the
unrounded sweep with every report field rounded, so the significance
filter and both selections compare rounded values. -/
theorem C5_rounding_inside_scanner (pfun : POracle) (tbl : List Bucket) (cac : ℚ) :
    sweep pfun tbl cac = (sweep_unrounded pfun tbl cac).map roundWindowResult := by
  rw [sweep, sweepLoop_eq_map, sweep_unrounded, List.map_map]
  rfl

/-- A t-test oracle under which rounding flips the selection: the size-3
window gets p = 0.05024 and the size-4 window p = 0.05016 (both round to
0.0502 at four decimals, and both at least 0.05), every other window
p = 0.9. -/
def pfunC5 : POracle := fun _ worst =>
  if worst.length = 3 then (0, 628/12500)
  else if worst.length = 4 then (0, 627/12500)
  else (0, 9/10)

set_option maxRecDepth 2500 in
/-- C5 counterexample: on the example events with the oracle `pfunC5`
the code (which rounds before selecting) recommends window size 3, while
selection over the unrounded values recommends window size 4 — the
selected window size differs, refuting the claim that rounding never
affects selection. -/
theorem C5_counterexample :
    (analyzeCore pfunC5 exampleEvents).map (fun rec => rec.result.window_size)
      = some 3 ∧
    (analyzeCoreUnrounded pfunC5 exampleEvents).map (fun rec => rec.result.window_size)
      = some 4 := by
  constructor
  · rw [analyzeCore, hourlyAgg_example, cac_example]
    with_unfolding_all decide
  · rw [analyzeCoreUnrounded, hourlyAgg_example, cac_example]
    with_unfolding_all decide

end AdsFlask

namespace AdsFlask

/-- C6: the division of line 48 is not zero-guarded — an input with
spend but zero total results makes `current_avg_cost` infinite, and one
with zero spend and zero results makes it `NaN`, never `0`. -/
theorem C6_zero_results_infinite_average :
    current_avg_cost_float (hourlyAgg [⟨0, 0, 5⟩]) = FVal.inf ∧
    current_avg_cost_float (hourlyAgg [⟨0, 0, 0⟩]) = FVal.nan := by
  constructor <;> with_unfolding_all decide

/-- C7: a bucket with zero spend and zero results gets cost-per-result
`NaN` (the `replace` of line 43 only handles the infinities); with
positive spend and zero results the infinity is replaced by `0` as the
claim says. -/
theorem C7_zero_over_zero_cost_is_nan :
    (hourlyAgg [⟨0, 0, 0⟩]).map (fun b => b.costPerResult) = [FVal.nan] ∧
    (hourlyAgg [⟨0, 0, 5⟩]).map (fun b => b.costPerResult) = [FVal.fin 0] := by
  constructor <;> with_unfolding_all decide

/-- C8 (amended): whenever a required column is missing the analysis
fails with the one static error banner — the same value for every input,
so the error names neither the missing columns nor the discovered column
set — and no recommendation is produced. -/
theorem C8_missing_columns_static_error (pfun : POracle) (currency : String)
    (cols : List String) (rows : List Row)
    (h : checkColumns cols currency = false) :
    analyze pfun currency cols rows = .error errorMessage := by
  rw [analyze, h]
  simp

/-- C8 counterexample: two inputs with different discovered column sets
(and different missing sets) produce the identical error value, so the
error cannot name the missing columns or the discovered columns. -/
theorem C8_counterexample :
    analyze pfunConst "USD" [] [] = .error errorMessage ∧
    analyze pfunConst "USD" ["Results"] [] = .error errorMessage ∧
    ([] : List String) ≠ ["Results"] := by
  refine ⟨?_, ?_, by simp⟩ <;> with_unfolding_all rfl

/-- Witness for C8 at a concrete column set. -/
theorem C8_witness :
    analyze pfunConst "USD" ["Results"] [] = .error errorMessage :=
  C8_missing_columns_static_error pfunConst "USD" ["Results"] []
    (by with_unfolding_all decide)

end AdsFlask

namespace AdsFlask

/-- C9 (amended): with the columns present, the analysis fails exactly
when some row has a non-integer two-character hour prefix (and then with
the generic banner, not a row-specific error); whenever every prefix
parses — to any integer, in range or not — the analysis succeeds and
every row is kept with exactly the hour its prefix denotes. -/
theorem C9_parse_failure_characterisation (pfun : POracle) (currency : String)
    (cols : List String) (rows : List Row)
    (hcols : checkColumns cols currency = true) :
    (exceptOk (analyze pfun currency cols rows) = false ↔
      ∃ r ∈ rows, parseIntChars (r.timeOfDay.take 2) = none) ∧
    ∀ events, parseRows rows = some events →
      events.map (fun e => (some e.hour : Option ℤ)) =
        rows.map (fun r => parseIntChars (r.timeOfDay.take 2)) := by
  refine ⟨?_, fun events hp => parseRows_hours rows events hp⟩
  cases hp : parseRows rows with
  | none =>
    rw [analyze, hcols]
    simp only [if_true, hp, exceptOk, eq_self_iff_true, true_iff]
    exact (parseRows_eq_none rows).mp hp
  | some events =>
    obtain ⟨rec, hrec⟩ := analyzeCore_exists pfun events
    rw [analyze, hcols]
    simp only [if_true, hp, hrec, exceptOk]
    constructor
    · intro h
      exact absurd h (by simp)
    · intro hex
      have : parseRows rows = none := (parseRows_eq_none rows).mpr hex
      rw [this] at hp
      exact absurd hp (by simp)

/-- A column set containing all three required columns for USD. -/
def goodCols : List String :=
  ["Results", "Time of day (ad account time zone)", "Amount spent (USD)"]

/-- A row whose time-of-day cell reads `25:00` — hour 25, out of the
range 0..23. -/
def hour25Row : Row := ⟨['2', '5', ':', '0', '0'], 10, 5⟩

set_option maxRecDepth 2000 in
/-- C9 counterexample: the out-of-range hour 25 parses and the whole
analysis succeeds — the row is kept, with its own hour-25 bucket — where
the claim requires a parse failure. -/
theorem C9_counterexample :
    parseRows [hour25Row] = some [⟨25, 10, 5⟩] ∧
    exceptOk (analyze pfunConst "USD" goodCols [hour25Row]) = true ∧
    (hourlyAgg [⟨25, 10, 5⟩]).map (fun b => b.hour) = [25] := by
  refine ⟨by with_unfolding_all rfl, ?_, by with_unfolding_all decide⟩
  with_unfolding_all decide

/-- Witness for C9 at a concrete non-numeric row. -/
theorem C9_witness :
    (exceptOk (analyze pfunConst "USD" goodCols [⟨['a', 'b'], 1, 1⟩]) = false ↔
      ∃ r ∈ [(⟨['a', 'b'], 1, 1⟩ : Row)], parseIntChars (r.timeOfDay.take 2) = none) ∧
    ∀ events, parseRows [(⟨['a', 'b'], 1, 1⟩ : Row)] = some events →
      events.map (fun e => (some e.hour : Option ℤ)) =
        [(⟨['a', 'b'], 1, 1⟩ : Row)].map (fun r => parseIntChars (r.timeOfDay.take 2)) :=
  C9_parse_failure_characterisation pfunConst "USD" goodCols
    [⟨['a', 'b'], 1, 1⟩] (by with_unfolding_all decide)

end AdsFlask
